import Mathlib

/-!
Shallow embedding of the RenovoGo LLM backend trust scorer and dialogue
policy primitives (src/server.js v2025-09-16-11 and the matching trust.js
revision, src/unnamed/part_000), together with proofs of the testable
properties stated in the specification.

Modelling conventions:
* JS numbers are modelled as rationals (`ℚ`); the final trust value is an
  integer (`ℤ`) obtained by `Math.round` after clamping.
* A possibly-absent / possibly-non-numeric JS argument is modelled by
  `Option JSNum`, where `JSNum.nan` stands for any value whose `Number(x)`
  coercion is `NaN`.
* JS regex `.test` calls are compiled to explicit scanners over `List Char`.
  The sources only use alternations of literals, `\s*` / `\s+` gaps and the
  word-boundary assertion `\b`; the scanners implement exactly those, with
  the JavaScript (non-`u`-flag) notion of word character `[A-Za-z0-9_]` —
  in particular a Cyrillic letter is *not* a word character, which the
  embedding reproduces faithfully.
* `String.prototype.toLowerCase` is modelled for the character ranges that
  actually occur in the sources (ASCII and Cyrillic).
-/

namespace Renovogo

/-- Result of JavaScript `Number(x)` on an input: a real numeric value, or
`NaN` for malformed input. -/
inductive JSNum where
  | val : ℚ → JSNum
  | nan : JSNum
deriving DecidableEq

/-- JS `Number(x) || 0`: `NaN` (and `0` itself) collapse to `0`. -/
def numOr0 : JSNum → ℚ
  | .val q => q
  | .nan => 0

/-- Default-parameter semantics of `computeTrust({ baseTrust = 20 })`:
a missing (`undefined`) argument becomes the number `20`. -/
def coerceBase : Option JSNum → JSNum
  | none => .val 20
  | some v => v

/-- clamp01_100 from trust.js: `Math.max(0, Math.min(100, Number(x) || 0))`. -/
def clamp01_100 (x : JSNum) : ℚ := max 0 (min 100 (numOr0 x))

/-- JS `Math.round` on a clamped nonnegative number: `⌊x + 1/2⌋` (JS rounds
half-way cases up). -/
def roundJS (q : ℚ) : ℤ := ⌊q + 1/2⌋

/-- toLowerCase for the character ranges used by the repository: ASCII
`A`–`Z`, Cyrillic `А`–`Я` (U+0410–U+042F) and `Ё` (U+0401). -/
def jsCharLower (c : Char) : Char :=
  if 'A' ≤ c ∧ c ≤ 'Z' then Char.ofNat (c.toNat + 32)
  else if 0x410 ≤ c.toNat ∧ c.toNat ≤ 0x42F then Char.ofNat (c.toNat + 32)
  else if c.toNat = 0x401 then Char.ofNat 0x451
  else c

/-- String.prototype.toLowerCase (restricted as in `jsCharLower`). -/
def jsToLower (s : String) : String := ⟨s.data.map jsCharLower⟩

/-- String.prototype.trim, written at the character-list level so that it
reduces well in the kernel. -/
def jsTrim (s : String) : String :=
  ⟨((s.data.dropWhile Char.isWhitespace).reverse.dropWhile Char.isWhitespace).reverse⟩

/-- Substring search on character lists (`String.prototype.includes` /
an anchorless regex literal). -/
def containsL (t p : List Char) : Bool :=
  p.isPrefixOf t ||
    match t with
    | [] => false
    | _ :: rest => containsL rest p

/-- Substring test on strings. -/
def containsStr (t pat : String) : Bool := containsL t.data pat.data

/-- Alternation of plain literals: `/(a|b|c)/.test t`. -/
def containsAny (t : String) (pats : List String) : Bool :=
  pats.any (containsStr t)

/-- JS regex word character (no `u` flag): `[A-Za-z0-9_]`.
Cyrillic letters are not word characters. -/
def isWordChar (c : Char) : Bool :=
  ('a' ≤ c && c ≤ 'z') || ('A' ≤ c && c ≤ 'Z') || c.isDigit || c = '_'

/-- Wordness of an optional character; the virtual characters beyond the
ends of the string count as non-word. -/
def isWordO : Option Char → Bool
  | none => false
  | some c => isWordChar c

/-- JS `\b`: holds between two (virtual) characters of different wordness. -/
def boundaryB (a b : Option Char) : Bool := isWordO a != isWordO b

/-- Fragment of a compiled regex: a literal, `\s*`, or `\s+`. -/
inductive Pat where
  | lit : String → Pat
  | ws0 : Pat
  | ws1 : Pat

/-- Last element of a list, else a fallback option. -/
def lastO (l : List Char) (d : Option Char) : Option Char :=
  match l.getLast? with
  | some c => some c
  | none => d

/-- Match a sequence of fragments at the head of `cs`; returns the last
consumed character (for a trailing `\b` test) and the remaining input.
`\s*` / `\s+` take the maximal whitespace run, which is equivalent to the
backtracking semantics here because every gap is followed by a literal
starting with a non-whitespace character. -/
def matchParts : List Pat → Option Char → List Char → Option (Option Char × List Char)
  | [], last, cs => some (last, cs)
  | .lit p :: ps, last, cs =>
      if p.data.isPrefixOf cs then
        matchParts ps (lastO p.data last) (cs.drop p.data.length)
      else none
  | .ws0 :: ps, last, cs =>
      matchParts ps (lastO (cs.takeWhile Char.isWhitespace) last)
        (cs.dropWhile Char.isWhitespace)
  | .ws1 :: ps, last, cs =>
      match cs with
      | [] => none
      | c :: rest =>
          if c.isWhitespace then
            matchParts ps (lastO (c :: rest.takeWhile Char.isWhitespace) last)
              (rest.dropWhile Char.isWhitespace)
          else none

/-- Compiled regex: optional leading `\b`, a fragment sequence, optional
trailing `\b`. -/
structure Rx where
  bdBefore : Bool
  parts : List Pat
  bdAfter : Bool

/-- Test `r` anchored at the current position (`prev` is the character just
before it). -/
def rxAt (r : Rx) (prev : Option Char) (cs : List Char) : Bool :=
  (!r.bdBefore || boundaryB prev cs.head?) &&
    match matchParts r.parts none cs with
    | none => false
    | some (last, rest) => !r.bdAfter || boundaryB last rest.head?

/-- Unanchored regex test (scan every position). -/
def rxGo (r : Rx) (prev : Option Char) (cs : List Char) : Bool :=
  rxAt r prev cs ||
    match cs with
    | [] => false
    | c :: rest => rxGo r (some c) rest

/-- `.test` of a compiled regex on a string. -/
def rxTest (r : Rx) (t : String) : Bool := rxGo r none t.data

/-- Boundary-free fragment sequence test. -/
def seqTest (t : String) (parts : List Pat) : Bool :=
  rxTest ⟨false, parts, false⟩ t

/-- `/\bw\b/.test t`. -/
def wordTest (t : String) (w : String) : Bool := rxTest ⟨true, [.lit w], true⟩ t

/-- `/\bw/.test t` (boundary only before the literal). -/
def bStartTest (t : String) (w : String) : Bool := rxTest ⟨true, [.lit w], false⟩ t

/-- Scanner for `/\b\d{1,3}(\s?[-–]\s?\d{1,3})?\b/`: the test succeeds iff
some maximal digit run of length 1–3 is flanked by non-word characters
(or the ends of the string). `run` is the length of the digit run currently
being read, `beforeNW` records whether the character before it was
non-word. -/
def numScanGo (beforeNW : Bool) (run : ℕ) : List Char → Bool
  | [] => beforeNW && decide (1 ≤ run ∧ run ≤ 3)
  | c :: rest =>
      if c.isDigit then numScanGo beforeNW (run + 1) rest
      else if beforeNW && decide (1 ≤ run ∧ run ≤ 3) && !isWordChar c then true
      else numScanGo (!isWordChar c) 0 rest

/-- Test of `/\b\d{1,3}(\s?[-–]\s?\d{1,3})?\b/` on a string. -/
def hasSmallNumber (t : String) : Bool := numScanGo true 0 t.data

/-- Scanner for `/\b20\d{2}\b/`. -/
def yearGo (prev : Option Char) : List Char → Bool
  | '2' :: '0' :: a :: b :: rest =>
      (boundaryB prev (some '2') && a.isDigit && b.isDigit
        && !isWordO rest.head?)
      || yearGo (some '2') ('0' :: a :: b :: rest)
  | c :: rest => yearGo (some c) rest
  | [] => false

/-- Test of `/\b20\d{2}\b/` on a string. -/
def has20xx (t : String) : Bool := yearGo none t.data

/-- Third stage of `/bank.*(4|four).*(days|дн)/`: find `days` or `дн`
without crossing a newline (`.` does not match `\n`). -/
def bankDays3 : List Char → Bool
  | [] => false
  | c :: rest =>
      if c = '\n' then false
      else
        ("days".data.isPrefixOf (c :: rest)) || ("дн".data.isPrefixOf (c :: rest))
          || bankDays3 rest

/-- Second stage: find `4` or `four`, then stage three after it. -/
def bankDays2 : List Char → Bool
  | [] => false
  | c :: rest =>
      if c = '\n' then false
      else
        (c = '4' && bankDays3 rest)
          || ("four".data.isPrefixOf (c :: rest) && bankDays3 (rest.drop 3))
          || bankDays2 rest

/-- Scanner for `/bank.*(4|four).*(days|дн)/i` (on lowered text). -/
def bankDaysGo : List Char → Bool
  | [] => false
  | c :: rest =>
      ("bank".data.isPrefixOf (c :: rest) && bankDays2 (rest.drop 3))
        || bankDaysGo rest

/-- Test of `/bank.*(4|four).*(days|дн)/i` on an (already lowered) string. -/
def bankDaysTest (t : String) : Bool := bankDaysGo t.data

/-! ### Evidence classification (trust.js, src/unnamed/part_000 lines 80–114) -/

/-- Hard-tier evidence keys. -/
def HARD_PROOFS : List String := ["demand_letter", "coop_contract_pdf", "contract_pdf"]

/-- Medium-tier evidence keys. -/
def MEDIUM_PROOFS : List String :=
  ["website", "company_registry", "registry_proof", "visa_sample", "reviews"]

/-- Support-tier evidence keys. -/
def SUPPORT_PROOFS : List String :=
  ["sample_contract_pdf", "price_breakdown", "slot_plan", "nda",
   "invoice_template", "business_card", "presentation", "video"]

/-- Normalization applied to each raw key: `String(e).trim().toLowerCase()`. -/
def normKey (e : String) : String := jsToLower (jsTrim e)

/-- Result of `countKinds`. -/
structure Kinds where
  uniq : ℕ
  hard : ℕ
  med : ℕ
  sup : ℕ
  uniqSet : List String
deriving DecidableEq

/-- countKinds: deduplicated normalized keys, counted per tier with the
`if` / `else if` chain of the source. -/
def countKinds (evidences : List String) : Kinds :=
  let u := (evidences.map normKey).dedup
  { uniq := u.length
    hard := u.countP (fun e => HARD_PROOFS.contains e)
    med := u.countP (fun e => !HARD_PROOFS.contains e && MEDIUM_PROOFS.contains e)
    sup := u.countP (fun e => !HARD_PROOFS.contains e && !MEDIUM_PROOFS.contains e
                      && SUPPORT_PROOFS.contains e)
    uniqSet := u }

/-! ### Conversation history -/

/-- One sanitized history message (`sanitizeHistory` shape in server.js):
role, content and optional stage. The scorer reads
`m.text || m.content || m.message`, which is `content` here. -/
structure Msg where
  role : String
  content : String
  stage : Option String
deriving DecidableEq

/-- JS `slice(-n)`: the last at most `n` elements. -/
def lastN (n : ℕ) (l : List α) : List α := l.drop (l.length - n)

/-! ### Text signal analyzers (src/unnamed/part_000 lines 116–204) -/

/-- politenessScoreLite. -/
def politenessScoreLite (text : String) : ℚ :=
  let t := jsToLower text
  (if containsAny t ["здрав", "добрый день", "доброе утро", "добрый вечер",
      "приветствую"] then 2 else 0)
  + (if containsAny t ["спасибо", "благодарю", "пожалуйста"] then 1 else 0)
  + (if containsAny t ["рад знакомству", "рада знакомству",
      "приятно познакомиться"] then 2 else 0)
  + (if containsStr t "renovogo" then 1 else 0)

/-- pressureScore. -/
def pressureScore (text : String) : ℚ :=
  let t := jsToLower text
  (if containsAny t ["срочно", "немедленно", "давайте быстрее", "прямо сейчас",
      "сегодня же"] then -4 else 0)
  + (if containsAny t ["или мы уйдем", "или мы уйдём", "иначе",
      "последний шанс"] then -4 else 0)

/-- Unit alternatives of the fast-deadline regex, with their trailing `\b`. -/
def fastUnits : List String :=
  ["дня", "дней", "дн", "day", "days", "сут", "часа", "часов", "час",
   "hour", "hours"]

/-- `/\b(1|2|3|4|5)\s*(дн(я|ей)?|day|days|сут|час(а|ов)?|hour|hours)\b|48\s*час|завтра/`. -/
def fastTimeline (t : String) : Bool :=
  (["1", "2", "3", "4", "5"].any fun d =>
    fastUnits.any fun u => rxTest ⟨true, [.lit d, .ws0, .lit u], true⟩ t)
  || seqTest t [.lit "48", .ws0, .lit "час"]
  || containsStr t "завтра"

/-- unrealisticTimeline. -/
def unrealisticTimeline (text : String) : Bool :=
  let t := jsToLower text
  containsAny t ["документ", "контракт", "офер", "виза", "слот", "приглашени",
    "регистрац"]
  && fastTimeline t

/-- concretenessScore: numbers / currencies / dates / locations, capped at 3. -/
def concretenessScore (text : String) : ℚ :=
  let tl := jsToLower text
  let sc : ℚ :=
    (if hasSmallNumber text then 1 else 0)
    + (if containsStr tl "€" || wordTest tl "eur" || wordTest tl "czk"
        || wordTest tl "pln" || containsStr tl "$" || wordTest tl "usd"
        then 1 else 0)
    + (if (["янв", "фев", "мар", "апр", "май", "июн", "июл", "авг", "сен",
          "окт", "ноя", "дек", "jan", "feb", "mar", "apr", "may", "jun",
          "jul", "aug", "sep", "oct", "nov", "dec"].any (bStartTest tl))
        || has20xx text then 1 else 0)
    + (if ["прага", "brno", "пльзень", "warsaw", "варшава", "wrocław",
          "вроцлав", "katowice", "катовице", "чех", "польш"].any (bStartTest tl)
        then 1 else 0)
  min sc 3

/-- Aggregated tone of the last six history messages. -/
structure Tone where
  polite : ℚ
  press : ℚ
  obseq : ℕ
deriving DecidableEq

/-- Obsequiousness test of one message:
`/(ок($|[.!?])|окей|да, конечно|что угодно|как скажете)/i && /подбор|ищите|занимайтесь/i`. -/
def obseqTest (c : String) : Bool :=
  let lc := jsToLower c
  (containsAny lc ["ок.", "ок!", "ок?", "окей", "да, конечно", "что угодно",
      "как скажете"] || "ок".data.isSuffixOf lc.data)
  && containsAny lc ["подбор", "ищите", "занимайтесь"]

/-- toneFromHistory: sums over `history.slice(-6)`, skipping messages with
empty (falsy) content. -/
def toneFromHistory (history : List Msg) : Tone :=
  (lastN 6 history).foldl
    (fun acc h =>
      if h.content = "" then acc
      else
        { polite := acc.polite + politenessScoreLite h.content
          press := acc.press + pressureScore h.content
          obseq := acc.obseq + (if obseqTest h.content then 1 else 0) })
    ⟨0, 0, 0⟩

/-- Red/green/gray flags of the latest user message. -/
structure Signals where
  red : List String
  green : List String
  gray : List String
deriving DecidableEq

/-- textSignals (src/unnamed/part_000 lines 170–192). -/
def textSignals (text : String) : Signals :=
  let t := jsToLower text
  let red :=
    (if (rxTest ⟨true, [.lit "крипт"], false⟩ t || containsStr t "usdt"
          || containsStr t "btc" || rxTest ⟨false, [.lit "eth"], true⟩ t)
        && containsAny t ["сразу", "предоплат", "аванс"]
      then ["crypto_upfront"] else [])
    ++ (if containsAny t ["гарантирую", "100%", "сто процентов", "без отказов"]
      then ["impossible_guarantee"] else [])
    ++ (if containsAny t ["поторопитесь", "только сегодня", "срочно платите"]
      then ["pressure"] else [])
    ++ (if containsAny t ["связи в посольстве", "решаем через знакомых"]
      then ["embassy_connections_claim"] else [])
    ++ (if unrealisticTimeline t then ["unrealistic_timeline"] else [])
    ++ (if containsAny t ["зарплат", "salary"]
          && (seqTest t [.lit "€", .ws0, .lit "350"]
              || seqTest t [.lit "350", .ws0, .lit "€"] || wordTest t "350")
      then ["fee_salary_confusion"] else [])
    ++ (if containsStr t "реквизит" && containsStr t "demand"
      then ["requisites_from_demand"] else [])
  let green :=
    (if containsAny t ["счет", "счёт", "инвойс", "банковск"]
      then ["mentions_bank_payment"] else [])
    ++ (if containsAny t ["сайт", "website", "http://", "https://"]
      then ["mentions_website"] else [])
    ++ (if containsAny t ["деманд", "demand"] then ["mentions_demand"] else [])
    ++ (if containsAny t ["контракт", "офер", "соглашени"]
      then ["mentions_contract"] else [])
    ++ (if containsAny t ["тест кандидат", "тестовый кандидат",
          "с одного кандидата", "12 кандидата", "1-2 кандидата"]
      then ["test_one_candidate"] else [])
  let gray :=
    if containsAny t ["позже", "вернусь", "через неделю", "давайте потом"]
      then ["postpone"] else []
  ⟨red, green, gray⟩

/-- businessFocusScore, capped at 3. -/
def businessFocusScore (text : String) : ℚ :=
  let t := jsToLower text
  let sc : ℚ :=
    (if containsAny t ["ваканси", "позици", "role", "position", "должност"]
      then 1 else 0)
    + (if containsAny t ["зарплат", "salary", "нетто", "брутто"] then 1 else 0)
    + (if containsAny t ["жиль", "accommodat", "общежит", "проживан"]
      then 1 else 0)
    + (if containsAny t ["график", "смен", "hours", "schedule"]
        || seqTest t [.lit "work", .ws0, .lit "time"] then 1 else 0)
    + (if containsAny t ["локац", "город", "location", "where"] then 1 else 0)
    + (if containsAny t ["контракт", "demand", "документ", "офер", "agreement"]
      then 1 else 0)
  min 3 sc

/-! ### Personal questions (src/unnamed/part_000 lines 206–249) -/

/-- PERSONAL_RX as a literal alternation (the optional groups are expanded;
`год(а)?` reduces to the substring `год` for a `.test`). -/
def personalRx (t : String) : Bool :=
  containsAny (jsToLower t)
    ["семья", "дети", "женат", "замужем", "личная", "личные", "хобби",
     "возраст", "год", "сколько лет", "любимый", "любимая", "увлечен",
     "чем увлекаешь", "откуда ты", "где живешь", "семейное положение"]

/-- countPersonalQuestions: user messages in the history whose content
matches PERSONAL_RX (one per message). -/
def countPersonalQuestions (history : List Msg) : ℕ :=
  (history.filter (fun m => jsToLower m.role == "user")).countP
    (fun m => personalRx m.content)

/-- Cap/bonus pair per trust bracket. -/
structure CapBonus where
  cap : ℕ
  bonus : ℚ
deriving DecidableEq

/-- personalQuestionsCapByTrust. -/
def personalQuestionsCapByTrust (trust : ℚ) : CapBonus :=
  if 100 ≤ trust then ⟨8, 3⟩
  else if 90 ≤ trust then ⟨7, 3⟩
  else if 80 ≤ trust then ⟨6, 2⟩
  else if 70 ≤ trust then ⟨5, 2⟩
  else if 60 ≤ trust then ⟨4, 1⟩
  else if 50 ≤ trust then ⟨3, 1⟩
  else if 40 ≤ trust then ⟨2, 1⟩
  else ⟨0, 0⟩

/-- personalLifeAdjustment. -/
def personalLifeAdjustment (trustNow : ℚ) (history : List Msg)
    (lastUserText : String) : ℚ :=
  if !personalRx lastUserText then 0
  else
    let totalPersonalAsked := countPersonalQuestions history
    let cb := personalQuestionsCapByTrust trustNow
    if trustNow < 40 then -4
    else if cb.cap < totalPersonalAsked then 0
    else cb.bonus

/-! ### Courtesy with cooldown (src/unnamed/part_000 lines 251–275) -/

/-- COURTESY_RX. -/
def courtesyRx (t : String) : Bool :=
  containsAny (jsToLower t)
    ["сэр", "sir", "пожалуйста", "плиз", "пжл", "извините", "простите",
     "подскажите", "будьте добры"]

/-- COOLDOWN_TURNS in trust.js. -/
def COOLDOWN_TURNS_TRUST : ℤ := 6

/-- courtesyBonusWithCooldown: `+0.5` when the latest text is polite and no
earlier user message within the last `COOLDOWN_TURNS` user turns (excluding
the final user message itself, per the `length - 2` loop start) was polite. -/
def courtesyBonusWithCooldown (history : List Msg) (lastUserText : String) : ℚ :=
  if !courtesyRx lastUserText then 0
  else
    let userMsgs := history.filter (fun m => jsToLower m.role == "user")
    let prevs := userMsgs.dropLast
    match prevs.reverse.findIdx? (fun m => courtesyRx m.content) with
    | none => 1/2
    | some j =>
        let i : ℤ := (prevs.length : ℤ) - 1 - (j : ℤ)
        let idxNow : ℤ := (userMsgs.length : ℤ) - 1
        if idxNow - i ≤ COOLDOWN_TURNS_TRUST then 0 else 1/2

/-! ### Dialogue micro-credits (src/unnamed/part_000 lines 355–385) -/

/-- The seven informational-topic detectors of `dialogMicroCredits`
(each applied to the lowered message text). -/
def microKeyTests : List (String → Bool) :=
  [fun t => containsAny t ["ваканси", "позици", "role", "position", "должност"],
   fun t => containsAny t ["зарплат", "salary", "net", "gross", "нетто", "брутто"],
   fun t => containsAny t ["жиль", "accommodat", "общежит", "проживан"],
   fun t => containsAny t ["график", "смен", "hours", "schedule"]
     || seqTest t [.lit "work", .ws0, .lit "time"],
   fun t => containsAny t ["локац", "город", "location", "where", "city"],
   fun t => containsAny t ["контракт", "офер", "demand", "документ", "agreement"],
   fun t => containsAny t ["сайт", "website", "http://", "https://"]]

/-- Payment-pressure detector `payRx`. -/
def payRxTest (t : String) : Bool :=
  containsAny t ["оплат", "платеж", "платёж", "инвойс", "счет", "счёт",
    "реквизит"]

/-- Result of `dialogMicroCredits`. -/
structure Micro where
  uniqInfoKeysCount : ℕ
  recentEarlyPayPressure : Bool
deriving DecidableEq

/-- dialogMicroCredits: distinct informational topics over the last 12 user
messages, plus the early-payment-pressure detector over the last 6. -/
def dialogMicroCredits (hist : List Msg) (hardCount medCount : ℕ) : Micro :=
  let userMsgs := lastN 12 (hist.filter (fun m => jsToLower m.role == "user"))
  let found := microKeyTests.countP
    (fun p => userMsgs.any (fun m => p (jsToLower m.content)))
  let earlyPayHits := (lastN 6 userMsgs).countP
    (fun m => payRxTest (jsToLower m.content))
  let pass2 := 2 ≤ hardCount ∨ (1 ≤ hardCount ∧ 1 ≤ medCount)
  ⟨found, decide (2 ≤ earlyPayHits) && !(decide pass2)⟩

/-! ### The trust scorer (src/unnamed/part_000 lines 279–353) -/

/-- Stage names recorded in the history, lowered:
`history.map(h => String(h.stage || '').toLowerCase())`. -/
def stagesOf (history : List Msg) : List String :=
  history.map (fun h => jsToLower (h.stage.getD ""))

/-- Penalty attached to one red flag (step 4 of `computeTrust`). -/
def redPenaltyOf (r : String) : ℚ :=
  if r = "crypto_upfront" then -25
  else if r = "impossible_guarantee" then -30
  else if r = "pressure" then -16
  else if r = "embassy_connections_claim" then -30
  else if r = "unrealistic_timeline" then -12
  else if r = "fee_salary_confusion" then -12
  else if r = "requisites_from_demand" then -10
  else 0

/-- Total red-flag penalty (the `for r of sig.red` loop). -/
def redPenalty (red : List String) : ℚ := (red.map redPenaltyOf).sum

/-- Green-flag bonuses. -/
def greenBonus (green : List String) : ℚ :=
  (if green.contains "mentions_bank_payment" then 2 else 0)
  + (if green.contains "mentions_website" then 1 else 0)
  + (if green.contains "mentions_demand" then 2 else 0)
  + (if green.contains "mentions_contract" then 2 else 0)
  + (if green.contains "test_one_candidate" then 2 else 0)

/-- Steps 1–4 of `computeTrust` (documents, stages, tone, concreteness,
business focus, red and green flags): the score fed to the
personal-question adjustment. -/
def preRedGreenScore (baseTrust : Option JSNum) (evidences : List String)
    (history : List Msg) (lastUserText : String) : ℚ :=
  let k := countKinds evidences
  let hasCoop := k.uniqSet.contains "coop_contract_pdf"
    || k.uniqSet.contains "contract_pdf"
  let s1 := clamp01_100 (coerceBase baseTrust)
    + (k.hard : ℚ) * 10 + ((min 3 k.med : ℕ) : ℚ) * 4
    + ((min 3 k.sup : ℕ) : ℚ) * 2
    + (if hasCoop then 4 else 0)
    + (if 3 ≤ k.uniq then 3 else 0) + (if 5 ≤ k.uniq then 3 else 0)
  let stages := stagesOf history
  let s2 := s1
    + (if stages.contains "candidate" ∧ 0 < k.hard + k.med then 2 else 0)
    + (if stages.contains "contract" ∧ 0 < k.hard then 3 else 0)
  let tone := toneFromHistory history
  let s3 := s2 + min 4 tone.polite + tone.press
    + (if 2 ≤ tone.obseq then -3 else 0)
  let s4 := s3 + concretenessScore lastUserText + businessFocusScore lastUserText
  let sig := textSignals lastUserText
  s4 + redPenalty sig.red + greenBonus sig.green

/-- Steps 1–7 of `computeTrust`: the raw score before the nonlinear gates
(the personal-question adjustment is applied to the running score, then
the courtesy bonus and the dialogue micro-credits). -/
def preGateScore (baseTrust : Option JSNum) (evidences : List String)
    (history : List Msg) (lastUserText : String) : ℚ :=
  let s5 := preRedGreenScore baseTrust evidences history lastUserText
  let s6 := s5 + personalLifeAdjustment s5 history lastUserText
  let s7 := s6 + courtesyBonusWithCooldown history lastUserText
  let k := countKinds evidences
  let micro := dialogMicroCredits history k.hard k.med
  s7 + ((min 8 micro.uniqInfoKeysCount : ℕ) : ℚ)
    + (if micro.recentEarlyPayPressure then 0 else 1)

/-- Step 8 of `computeTrust`: the three nonlinear gates plus the
premature-payment penalty (src/unnamed/part_000 lines 344–348). -/
def applyGates (s : ℚ) (hard med redCount : ℕ) (sawPayment : Bool) : ℚ :=
  let g1 := if 30 < s ∧ hard < 1 then 30 else s
  let pass2 := 2 ≤ hard ∨ (1 ≤ hard ∧ 1 ≤ med)
  let g2 := if 60 < g1 ∧ ¬pass2 then 60 else g1
  let g3 := if 75 < g2 ∧ (hard < 2 ∨ 0 < redCount) then 75 else g2
  if sawPayment ∧ g3 < 75 then max 0 (g3 - 8) else g3

/-- computeTrust (src/unnamed/part_000, the trust.js revision compatible
with server.js v2025-09-16-11): gate thresholds 30 / 60 / 75, returning
`Math.round(clamp01_100(score))`. -/
def computeTrust (baseTrust : Option JSNum) (evidences : List String)
    (history : List Msg) (lastUserText : String) : ℤ :=
  let k := countKinds evidences
  roundJS (clamp01_100 (.val
    (applyGates (preGateScore baseTrust evidences history lastUserText)
      k.hard k.med (textSignals lastUserText).red.length
      ((stagesOf history).contains "payment"))))

/-! ### Seeded PRNG (server.js lines 177–184)

`seededRand` hashes the seed string with 32-bit FNV-1a and then produces
values by a 13/17/5 xorshift; every step is taken modulo `2^32`, exactly the
bit pattern JavaScript computes with `imul`, `^`, `<<` and `>>>`.  The value
of one call is `((h >>> 0) % 1000) / 1000`. -/

/-- One FNV-1a step: `h ^= code; h = Math.imul(h, 16777619)`. -/
def fnvStep (h code : ℕ) : ℕ := ((h ^^^ code) * 16777619) % 2 ^ 32

/-- Initial PRNG state from a seed string (UTF-16 code units coincide with
the code points for the BMP characters that occur in the sources). -/
def seedInit (s : String) : ℕ := s.data.foldl (fun h c => fnvStep h c.toNat) 2166136261

/-- One xorshift step on the 32-bit state. -/
def xorshift (h : ℕ) : ℕ :=
  let a := (h ^^^ (h <<< 13)) % 2 ^ 32
  let b := a ^^^ (a >>> 17)
  (b ^^^ (b <<< 5)) % 2 ^ 32

/-- Advance the PRNG and produce its value in `[0, 1)` (a multiple of
`1/1000`). -/
def rngNext (h : ℕ) : ℕ × ℚ :=
  let h1 := xorshift h
  (h1, ((h1 % 1000 : ℕ) : ℚ) / 1000)

/-! ### Session state (server.js lines 186–243)

Only the fields read or written by the embedded functions are modelled;
`seenEvidences` keeps the key set (the purchase model only tests
membership), `turn` is the post-rules turn counter, and the two phrase
ledgers back the anti-repetition guard. -/

/-- Per-session mutable state. -/
structure SessionState where
  lastReply : String
  seenEvidences : List String
  lastObjection : String
  turn : ℕ
  phraseCounts : List (String × ℕ)
  lastUsedTurn : List (String × ℤ)
  alreadyCommitted : Bool
deriving DecidableEq

/-- Map lookup with default (`map.get(k) ?? d`). -/
def alGet (l : List (String × α)) (k : String) (d : α) : α :=
  match l.find? (fun p => p.1 == k) with
  | some p => p.2
  | none => d

/-- Map update (`map.set(k, v)`): replace the entry in place when the key
is present, otherwise append it at the end (insertion order is preserved,
as for a JS `Map`). -/
def alSet : List (String × α) → String → α → List (String × α)
  | [], k, v => [(k, v)]
  | p :: t, k, v => if p.1 == k then (k, v) :: t else p :: alSet t k v

/-- Ambient JavaScript environment: the wall-clock randomness
(`Math.random`) and clock (`Date.now`) a function could consult.  The
objection generator and the purchase model are given the environment
explicitly so that their independence from it is a statable property. -/
structure Env where
  mathRandom : ℕ → ℚ
  now : ℕ

/-! ### Anti-repetition guard (server.js lines 421–467) -/

/-- Sentence splitter `split(/(?<=[.!?])\s+/)` followed by the truthiness
filter: a maximal whitespace run preceded by `.`, `!` or `?` separates
sentences. -/
def isSentPunct (c : Char) : Bool := c = '.' || c = '!' || c = '?'

/-- Character-level scanner for the sentence splitter.  `cur` is the
current segment (reversed), `prevPunct` records whether the previous
character was sentence punctuation, `inSep` whether we are inside a
separator run. -/
def sentGo : List Char → List Char → Bool → Bool → List (List Char)
  | [], cur, _, _ => [cur.reverse]
  | c :: rest, cur, prevPunct, inSep =>
      if inSep then
        if c.isWhitespace then sentGo rest cur prevPunct true
        else sentGo rest [c] (isSentPunct c) false
      else
        if c.isWhitespace && prevPunct then
          cur.reverse :: sentGo rest [] false true
        else sentGo rest (c :: cur) (isSentPunct c) false

/-- splitSentences (server.js lines 140–142). -/
def splitSentences (t : String) : List String :=
  ((sentGo t.data [] false false).map (fun l => String.mk l)).filter
    (fun s => jsTrim s ≠ "")

/-- Characters kept by `normPhrase` (`[^\p{L}\p{N}\s?.!,-]` removed).
Letters are modelled for the ASCII, Latin-1/Latin-Extended and Cyrillic
ranges occurring in the repository. -/
def keepPhraseChar (c : Char) : Bool :=
  c.isAlpha || (0xC0 ≤ c.toNat && c.toNat ≤ 0x24F)
    || (0x400 ≤ c.toNat && c.toNat ≤ 0x4FF)
    || c.isDigit || c.isWhitespace
    || c = '?' || c = '.' || c = '!' || c = ',' || c = '-'

/-- normPhrase: lower case, strip the disallowed characters, trim. -/
def normPhrase (s : String) : String :=
  jsTrim ⟨(jsToLower s).data.filter keepPhraseChar⟩

/-- STOP_PHRASES of the guard. -/
def STOP_PHRASES : List String :=
  ["как вы?", "ищете работу в польше", "ищете работу в чехии",
   "какие вакансии у вас доступны?", "какие вакансии у вас сейчас открыты?"]

/-- MAX_SAME_PHRASE: one use per session. -/
def MAX_SAME_PHRASE : ℕ := 1

/-- COOLDOWN_TURNS of the guard. -/
def COOLDOWN_TURNS : ℤ := 6

/-- MAX_QUESTIONS_IN_MSG. -/
def MAX_QUESTIONS_IN_MSG : ℕ := 1

/-- `/\?\s*$/.test s`: the last non-whitespace character is `?`. -/
def endsWithQuestion (s : String) : Bool :=
  match s.data.reverse.dropWhile Char.isWhitespace with
  | '?' :: _ => true
  | _ => false

/-- The guard's sentence loop.  Returns the accepted sentences (in order)
and the updated phrase ledgers. -/
def guardLoop (turn : ℤ) :
    List String → List String → List (String × ℕ) → List (String × ℤ) → ℕ →
    List String × List (String × ℕ) × List (String × ℤ)
  | [], out, pc, lu, _ => (out.reverse, pc, lu)
  | s :: rest, out, pc, lu, q =>
      let ns := normPhrase s
      if STOP_PHRASES.any (fun p => containsStr ns p) then
        guardLoop turn rest out pc lu q
      else if turn - alGet lu ns (-999) < COOLDOWN_TURNS then
        guardLoop turn rest out pc lu q
      else if MAX_SAME_PHRASE ≤ alGet pc ns 0 then
        guardLoop turn rest out pc lu q
      else if endsWithQuestion s && decide (MAX_QUESTIONS_IN_MSG ≤ q) then
        guardLoop turn rest out pc lu q
      else
        guardLoop turn rest (s :: out) (alSet pc ns (alGet pc ns 0 + 1))
          (alSet lu ns turn) (if endsWithQuestion s then q + 1 else q)

/-- `Array.prototype.join(' ')`. -/
def joinSpace : List String → String
  | [] => ""
  | [a] => a
  | a :: rest => a ++ " " ++ joinSpace rest

/-- repetitionGuard: filter the candidate sentences against the stoplist,
cooldown, per-session cap and question limit; fall back to `Ок.` when
everything was dropped. -/
def repetitionGuard (reply : String) (S : SessionState) : String × SessionState :=
  let r := guardLoop (S.turn : ℤ) (splitSentences reply) [] S.phraseCounts
    S.lastUsedTurn 0
  (if r.1.isEmpty then "Ок." else joinSpace r.1,
   { S with phraseCounts := r.2.1, lastUsedTurn := r.2.2 })

/-! ### Objection generator (server.js lines 473–508) -/

/-- Arguments of `chooseObjection` (destructured object parameter). -/
structure ObjArgs where
  userText : String
  trust : ℚ
  uniqEvidence : ℕ
  hasDemand : Bool
  hasCoop : Bool
  stage : String
deriving DecidableEq

/-- Result of `chooseObjection`: the objection line and the suggested
stage. -/
structure Objection where
  text : String
  stage : String
deriving DecidableEq

/-- `/(разрешен(ие|я)\s+на\s*работ|work\s*permit|zaměstnanecká|povolen[ií])/i`. -/
def mentionsPermitTest (t : String) : Bool :=
  (["разрешение", "разрешеня"].any fun a =>
    seqTest t [.lit a, .ws1, .lit "на", .ws0, .lit "работ"])
  || seqTest t [.lit "work", .ws0, .lit "permit"]
  || containsStr t "zaměstnanecká"
  || containsStr t "povoleni" || containsStr t "povolení"

/-- chooseObjection: trigger detection, pool selection with the
session-seeded PRNG, last-objection collision fallback, and the
evidence-gap stage suggestion.  `env` is the ambient environment (unused:
the function draws only from `seededRand(sid)`). -/
def chooseObjection (_env : Env) (sid : String) (a : ObjArgs)
    (S : SessionState) : Option Objection × SessionState :=
  let t := jsToLower a.userText
  let hasPriceTalk := containsAny t ["цена", "стоим", "дорог", "price", "€",
    "eur", "евро"]
  let mentionsPermit := mentionsPermitTest t
  let mentionsSlots := containsAny t ["слот", "очеред", "термин", "запис"]
  let mentionsPay := containsAny t ["оплат", "счет", "счёт", "инвойс", "банк",
    "pay", "invoice"]
  let poolBudget := ["Честно, для меня это сейчас дорого.",
    "Пока не готов закрывать всю сумму."]
  let poolAfterPermit :=
    ["Предпочитаю оплату после визы или хотя бы подтверждения регистрации."]
  let poolSlots := ["Сначала запись/подтверждение, потом вернусь к оплате."]
  let poolDelay := ["Возьму время на внутреннюю проверку и подберу кандидатов."]
  let hasTrigger := hasPriceTalk || mentionsPermit || mentionsSlots
    || mentionsPay || a.stage == "Payment"
  if !hasTrigger then (none, S)
  else
    let h0 := seedInit sid
    let chosen :=
      if hasPriceTalk then
        poolBudget.getD (Int.toNat ⌊(rngNext h0).2 * 2⌋) ""
      else if mentionsPermit then poolAfterPermit.getD 0 ""
      else if mentionsSlots then poolSlots.getD 0 ""
      else poolDelay.getD (Int.toNat ⌊(rngNext h0).2 * 1⌋) ""
    let chosen' :=
      if S.lastObjection ≠ "" ∧ jsToLower S.lastObjection = jsToLower chosen
      then "Давайте аккуратно, без лишних рисков." else chosen
    let stageSuggestion :=
      if !a.hasDemand then "Demand"
      else if !a.hasCoop then "Contract"
      else if a.uniqEvidence < 2 then "Candidate"
      else "Payment"
    (some ⟨chosen', stageSuggestion⟩, { S with lastObjection := chosen' })

/-! ### Purchase decision model (server.js lines 722–835) -/

/-- Result of `evaluateObjectionHandling`. -/
structure ObjFx where
  level : String
  bonus : ℚ
  score : ℕ
deriving DecidableEq

/-- evaluateObjectionHandling: count the matching rebuttal-quality
patterns, map to none/weak/strong. -/
def evaluateObjectionHandling (text : String) : ObjFx :=
  let t := jsToLower text
  let p1 := containsStr t "понимаю" || seqTest t [.lit "не", .ws0, .lit "настаиваю"]
    || containsStr t "спокойно" || seqTest t [.lit "без", .ws0, .lit "давления"]
  let p2 := seqTest t [.lit "вопрос", .ws0, .lit "не", .ws0, .lit "в", .ws0,
      .lit "цене"]
    || containsAny t ["ценност", "репутац", "долгосроч"]
  let p3 := ["начнем", "начнём", "начне", "начнё"].any fun a =>
    seqTest t [.lit a, .ws0, .lit "с", .ws0, .lit "одного"]
  let p4 := seqTest t [.lit "проверьте", .ws0, .lit "работу"]
    || seqTest t [.lit "проверить", .ws0, .lit "работу"]
    || containsAny t ["мисси", "партнер", "партнёр", "надежн", "надёжн"]
  let p5 := seqTest t [.lit "не", .ws0, .lit "отвечайте", .ws0, .lit "сейчас"]
    || seqTest t [.lit "как", .ws0, .lit "будете", .ws0, .lit "готовы"]
  let score := [p1, p2, p3, p4, p5].countP id
  if 4 ≤ score then ⟨"strong", 1/10, score⟩
  else if 2 ≤ score then ⟨"weak", 3/100, score⟩
  else ⟨"none", 0, score⟩

/-- Result of `evaluateCryptoPitch`. -/
structure CryptoFx where
  level : String
  score : ℕ
deriving DecidableEq

/-- evaluateCryptoPitch: pitch-strength patterns for a payment-channel
switch. -/
def evaluateCryptoPitch (text : String) : CryptoFx :=
  let t := jsToLower text
  let v1 : List (List Pat) := [[.lit "47"], [.lit "4-7"],
    [.lit "4", .ws0, .lit "–", .ws0, .lit "7"],
    [.lit "4", .ws0, .lit "до", .ws0, .lit "7"]]
  let c1 := (v1.any fun v =>
      seqTest t (v ++ [.ws0, .lit "дн"])
        || seqTest t (v ++ [.ws0, .lit "рабочих", .ws0, .lit "дн"]))
    || bankDaysTest t
  let c2 := seqTest t [.lit "5", .ws0, .lit "мин"]
    || seqTest t [.lit "5", .ws0, .lit "minutes"]
    || seqTest t [.lit "в", .ws0, .lit "течение", .ws0, .lit "5", .ws0, .lit "мин"]
  let c3 := seqTest t [.lit "начать", .ws0, .lit "сразу"]
    || containsAny t ["незамедлительно", "faster", "быстрее", "скорост",
        "ускорит"]
  let score := [c1, c2, c3].countP id
  if 2 ≤ score then ⟨"strong", score⟩
  else if score = 1 then ⟨"weak", score⟩
  else ⟨"none", score⟩

/-- decideCryptoAcceptance: trust-scaled base probability plus pitch bonus,
capped at 0.75; one PRNG draw decides. -/
def decideCryptoAcceptance (trust : ℚ) (cryptoFx : CryptoFx) (h : ℕ) :
    ℕ × Bool :=
  let base : ℚ :=
    if 100 ≤ trust then 45/100
    else if 90 ≤ trust then 30/100
    else if 80 ≤ trust then 15/100
    else 5/100
  let bonus : ℚ :=
    if cryptoFx.level = "strong" then 15/100
    else if cryptoFx.level = "weak" then 5/100
    else 0
  let p := max 0 (min (75/100) (base + bonus))
  let r := rngNext h
  (r.1, decide (r.2 < p))

/-- chooseCandidateCount: the skewed unit-count distribution. -/
def chooseCandidateCount (h : ℕ) : ℕ × ℕ :=
  let r := rngNext h
  if r.2 < 50/100 then (r.1, 1)
  else if r.2 < 75/100 then (r.1, 2)
  else if r.2 < 85/100 then (r.1, 3)
  else if r.2 < 90/100 then (r.1, 4)
  else if r.2 < 94/100 then (r.1, 5)
  else if r.2 < 97/100 then
    let r2 := rngNext r.1
    (r2.1, 6 + Int.toNat ⌊r2.2 * 2⌋)
  else
    let r2 := rngNext r.1
    (r2.1, 8 + Int.toNat ⌊r2.2 * 3⌋)

/-- pluralRu. -/
def pluralRu (n : ℕ) (one few many : String) : String :=
  let n10 := n % 10
  let n100 := n % 100
  if n10 = 1 ∧ n100 ≠ 11 then one
  else if 2 ≤ n10 ∧ n10 ≤ 4 ∧ (n100 < 12 ∨ 14 < n100) then few
  else many

/-- Arguments of `applyAliPurchaseDecision` (destructured object
parameter; `reply`, `stage` and `evidences` are accepted but unused by the
body, exactly as in the source). -/
structure PurchaseArgs where
  reply : String
  stage : String
  trust : ℚ
  evidences : List String
  userText : String
deriving DecidableEq

/-- Commitment decision emitted on a purchase. -/
structure Decision where
  reply : String
  stage : String
  needEvidence : Bool
  actions : List String
deriving DecidableEq

/-- baseProbByTrust inside `applyAliPurchaseDecision`. -/
def baseProbByTrust (t : ℚ) : ℚ :=
  if 100 ≤ t then 50/100
  else if 90 ≤ t then 35/100
  else if 80 ≤ t then 5/100
  else 1/100

/-- applyAliPurchaseDecision (server.js lines 784–835): session-permanent
commitment gate, evidence prerequisites, trust floor 70, seeded draw
against the commitment probability, unit count and payment channel, and
the commitment reply.  `env` is the ambient environment (never consulted:
all draws come from `seededRand(sid + "#buy#" + turn)`). -/
def applyAliPurchaseDecision (_env : Env) (sid : String) (a : PurchaseArgs)
    (S : SessionState) : Option Decision × SessionState :=
  if S.alreadyCommitted then (none, S)
  else
    let hasCard := S.seenEvidences.contains "business_card"
    let hasDemand := S.seenEvidences.contains "demand_letter"
    let hasSample := S.seenEvidences.contains "sample_contract_pdf"
    let hasCoop := S.seenEvidences.contains "coop_contract_pdf"
    let prereqsOk := hasCard && hasDemand && hasSample && hasCoop
      && decide (70 ≤ a.trust)
    if !prereqsOk then (none, S)
    else
      let objectionFx := evaluateObjectionHandling a.userText
      let cryptoFx := evaluateCryptoPitch a.userText
      let pBuy := max 0 (min (85/100) (baseProbByTrust a.trust + objectionFx.bonus))
      let r1 := rngNext (seedInit (sid ++ "#buy#" ++ toString S.turn))
      if !(decide (r1.2 < pBuy)) then (none, S)
      else
        let cc := chooseCandidateCount r1.1
        let candidates := cc.2
        let wc := decideCryptoAcceptance a.trust cryptoFx cc.1
        let buyLine := "Я готов с вами сотрудничать. Стартуем с "
          ++ toString candidates ++ " кандидат"
          ++ pluralRu candidates "ом" "ами" "ами" ++ ". "
          ++ (if wc.2 then
                "Предоставьте, пожалуйста, криптовалютные реквизиты для оплаты."
              else "Предоставьте, пожалуйста, банковский счёт для оплаты.")
        (some ⟨buyLine, "Payment", false, ["invoice_request"]⟩,
         { S with alreadyCommitted := true })

/-! ### Concrete fixtures used by witnesses and counterexamples -/

set_option maxRecDepth 100000
set_option maxHeartbeats 1600000

/-- A concrete ambient environment. -/
def envC : Env := ⟨fun _ => 0, 0⟩

/-- Evidence set of the Gate-1 example: one Support and two Medium keys,
no Hard key. -/
def evC2 : List String := ["business_card", "website", "reviews"]

/-- Evidence set of the §8 scenario claim. -/
def evC6 : List String := ["demand_letter", "coop_contract_pdf", "website"]

/-- History for the §8 scenario: two polite, informative user messages,
the second recorded at the `candidate` stage; no payment pressure. -/
def histC6 : List Msg :=
  [⟨"user", "здравствуйте, спасибо, рад знакомству", none⟩,
   ⟨"user", "вакансия зарплата жильё график город контракт сайт", some "candidate"⟩]

/-- Latest message for the §8 scenario: business-focused and concrete,
green flags only (bank, website, demand, contract, test-candidate), and no
red flag. -/
def msgC6 : String :=
  "подскажите: вакансия, зарплата, жильё, контракт, сайт, деманд, банковский счёт, тест кандидат, € 900, 2025"

/-- History containing five personal questions from the user. -/
def histC5 : List Msg :=
  [⟨"user", "у вас есть семья?", none⟩,
   ⟨"user", "а дети есть?", none⟩,
   ⟨"user", "вы женаты?", none⟩,
   ⟨"user", "какое у вас хобби?", none⟩,
   ⟨"user", "какой у вас возраст?", none⟩]

/-- A sixth personal question. -/
def msgC5 : String := "сколько лет вашим детям?"

/-- Session state for the purchase-model evaluation: all four prerequisite
evidences recorded, third turn, not yet committed. -/
def SC1 : SessionState :=
  ⟨"", ["business_card", "demand_letter", "sample_contract_pdf", "coop_contract_pdf"],
   "", 2, [], [], false⟩

/-- Purchase-model arguments: trust 100, empty latest manager message. -/
def argsC1 : PurchaseArgs := ⟨"", "Greeting", 100, [], ""⟩

/-- The commitment line the purchase model produces for session `demo`,
turn 2 (seed `demo#buy#2`: draw 0.130 < 0.5, unit draw 0.126 → 1 unit,
crypto draw 0.534 ≥ 0.45 → bank). -/
def buyLineC1 : String :=
  "Я готов с вами сотрудничать. Стартуем с 1 кандидатом. Предоставьте, пожалуйста, банковский счёт для оплаты."

/-- A session state that is already committed. -/
def SCcommitted : SessionState := { SC1 with alreadyCommitted := true }

/-- A session state with empty ledgers at turn 10, for the guard witness. -/
def SG : SessionState := ⟨"", [], "", 10, [], [], false⟩

/-! ## Helper lemmas -/

theorem clamp01_100_nonneg (x : JSNum) : 0 ≤ clamp01_100 x := le_max_left 0 _

theorem clamp01_100_le_100 (x : JSNum) : clamp01_100 x ≤ 100 :=
  max_le (by norm_num) (min_le_left 100 _)

theorem clamp01_100_le_of_le {q c : ℚ} (hc : 0 ≤ c) (h : q ≤ c) :
    clamp01_100 (.val q) ≤ c :=
  max_le hc (le_trans (min_le_right 100 q) h)

theorem clamp01_100_mono {q q' : ℚ} (h : q ≤ q') :
    clamp01_100 (.val q) ≤ clamp01_100 (.val q') :=
  max_le_max le_rfl (min_le_min le_rfl h)

theorem roundJS_le_int {q : ℚ} {n : ℤ} (h : q ≤ n) : roundJS q ≤ n := by
  unfold roundJS
  have h2 : ⌊q + 1/2⌋ ≤ ⌊(n : ℚ) + 1/2⌋ := Int.floor_le_floor (by linarith)
  have h3 : ⌊(n : ℚ) + 1/2⌋ = n := by
    rw [Int.floor_eq_iff]
    refine ⟨by linarith, by linarith⟩
  omega

theorem roundJS_nonneg {q : ℚ} (h : 0 ≤ q) : 0 ≤ roundJS q := by
  unfold roundJS
  exact Int.le_floor.mpr (by push_cast; linarith)

theorem roundJS_mono {q q' : ℚ} (h : q ≤ q') : roundJS q ≤ roundJS q' :=
  Int.floor_le_floor (by linarith)

/-- A cap gate cannot raise a score that is already at or below a bound
sitting at or below the cap. -/
theorem capIf_le_keep {c s bound : ℚ} {p : Prop} [Decidable p]
    (h : s ≤ bound) (hbc : bound ≤ c) : (if c < s ∧ p then c else s) ≤ bound := by
  rw [if_neg (fun hc => lt_irrefl c (lt_of_lt_of_le hc.1 (le_trans h hbc)))]
  exact h

/-- The payment-penalty step cannot raise a score already below a
nonnegative bound. -/
theorem payIf_le_bound {s bound : ℚ} (saw : Bool) (h : s ≤ bound)
    (h0 : (0:ℚ) ≤ bound) :
    (if saw = true ∧ s < 75 then max 0 (s - 8) else s) ≤ bound := by
  by_cases hp : saw = true ∧ s < 75
  · rw [if_pos hp]
    exact max_le h0 (by linarith)
  · rw [if_neg hp]
    exact h

theorem applyGates_le_30 (s : ℚ) (med red : ℕ) (saw : Bool) :
    applyGates s 0 med red saw ≤ 30 := by
  simp only [applyGates]
  have hg1 : (if 30 < s ∧ (0:ℕ) < 1 then (30:ℚ) else s) ≤ 30 := by
    by_cases h : 30 < s
    · rw [if_pos ⟨h, Nat.zero_lt_one⟩]
    · rw [if_neg (fun hc => h hc.1)]
      exact not_lt.mp h
  exact payIf_le_bound saw
    (capIf_le_keep (capIf_le_keep hg1 (by norm_num)) (by norm_num))
    (by norm_num)

/-- Monotonicity of one cap gate `if c < s ∧ p then c else s` when the
exemption predicate only weakens (`p' → p`). -/
theorem capIf_mono (c : ℚ) {s s' : ℚ} (p p' : Prop) [Decidable p] [Decidable p']
    (hs : s ≤ s') (hp : p' → p) :
    (if c < s ∧ p then c else s) ≤ (if c < s' ∧ p' then c else s') := by
  by_cases h1 : c < s ∧ p
  · by_cases h2 : c < s' ∧ p'
    · rw [if_pos h1, if_pos h2]
    · rw [if_pos h1, if_neg h2]
      exact le_trans (le_of_lt h1.1) hs
  · by_cases h2 : c < s' ∧ p'
    · rw [if_neg h1, if_pos h2]
      by_contra hc
      push_neg at hc
      exact h1 ⟨hc, hp h2.2⟩
    · rw [if_neg h1, if_neg h2]
      exact hs

/-- Monotonicity of the premature-payment penalty step. -/
theorem payPenalty_mono {s s' : ℚ} (saw : Bool) (hs : s ≤ s') :
    (if saw = true ∧ s < 75 then max 0 (s - 8) else s) ≤
      (if saw = true ∧ s' < 75 then max 0 (s' - 8) else s') := by
  by_cases h1 : saw = true ∧ s < 75
  · by_cases h2 : saw = true ∧ s' < 75
    · rw [if_pos h1, if_pos h2]
      exact max_le_max le_rfl (by linarith)
    · rw [if_pos h1, if_neg h2]
      have h75 : 75 ≤ s' := by
        by_contra hc
        push_neg at hc
        exact h2 ⟨h1.1, hc⟩
      exact max_le (by linarith) (by linarith)
  · by_cases h2 : saw = true ∧ s' < 75
    · rw [if_neg h1, if_pos h2]
      exact absurd ⟨h2.1, lt_of_le_of_lt hs h2.2⟩ h1
    · rw [if_neg h1, if_neg h2]
      exact hs

/-- Monotonicity of the whole gate stack in the score and the Hard count. -/
theorem applyGates_mono {s s' : ℚ} {hard hard' med red : ℕ} {saw : Bool}
    (hs : s ≤ s') (hh : hard ≤ hard') :
    applyGates s hard med red saw ≤ applyGates s' hard' med red saw := by
  simp only [applyGates]
  have m1 := capIf_mono 30 (hard < 1) (hard' < 1) hs (fun h => by omega)
  have m2 := capIf_mono 60 (¬(2 ≤ hard ∨ 1 ≤ hard ∧ 1 ≤ med))
    (¬(2 ≤ hard' ∨ 1 ≤ hard' ∧ 1 ≤ med)) m1 (fun h => by omega)
  have m3 := capIf_mono 75 (hard < 2 ∨ 0 < red) (hard' < 2 ∨ 0 < red) m2
    (fun h => by omega)
  exact payPenalty_mono saw m3

/-! ## C2: the zero-Hard gate -/

/-- C2 — with no Hard-tier evidence key in the evidence set, `computeTrust`
never reports a value above 30, for every base trust, history and latest
message (Gate 1 caps the score at 30 and every later step only lowers it). -/
theorem c2_no_hard_caps_at_30 (b : Option JSNum) (ev : List String)
    (hist : List Msg) (t : String) (hh : (countKinds ev).hard = 0) :
    computeTrust b ev hist t ≤ 30 := by
  simp only [computeTrust]
  rw [hh]
  refine roundJS_le_int (le_trans (clamp01_100_le_of_le (by norm_num)
    (applyGates_le_30 _ _ _ _)) (by norm_num))

/-- C2 witness: `baseTrust = 20` with evidences business card, website and
reviews has no Hard item, so the reported trust is at most 30. -/
theorem c2_no_hard_caps_at_30_witness :
    (countKinds evC2).hard = 0 ∧
      computeTrust (some (.val 20)) evC2 [] "" ≤ 30 :=
  ⟨by decide, c2_no_hard_caps_at_30 (some (.val 20)) evC2 [] "" (by decide)⟩

/-! ## C3: output bounds -/

/-- C3 — for every input (any base trust, malformed or not, any evidence
list, any history, any latest message) the trust returned by
`computeTrust` is an integer in `[0, 100]`: the final
`Math.round(clamp01_100 score)` enforces the contract defensively. -/
theorem c3_computeTrust_bounds (b : Option JSNum) (ev : List String)
    (hist : List Msg) (t : String) :
    0 ≤ computeTrust b ev hist t ∧ computeTrust b ev hist t ≤ 100 := by
  unfold computeTrust
  constructor
  · exact roundJS_nonneg (clamp01_100_nonneg _)
  · exact roundJS_le_int (le_trans (clamp01_100_le_100 _) (by norm_num))

/-! ## C1: the post-rules engine and the purchase decision model -/

/-- C1 — at a reachable state satisfying every premise of the claim
(business card, demand letter, sample contract and cooperation contract all
recorded, trust 100 ≥ 70, and the seeded draw 0.130 for `demo#buy#2` below
the commitment probability 0.5), `applyAliPurchaseDecision` itself does
produce the purchase-commitment reply with stage `Payment` and suggested
action `invoice_request`.  The dialogue-policy engine, however, never
invokes it: no call to `applyAliPurchaseDecision` (or
`applyAliPurchasePolicy`) exists anywhere in the repository, so this reply
can never become the engine's final output — the claim describes the
model's intent, and the missing call site is the code bug. -/
theorem c1_purchase_model_fires :
    applyAliPurchaseDecision envC "demo" argsC1 SC1 =
      (some ⟨buyLineC1, "Payment", false, ["invoice_request"]⟩,
       { SC1 with alreadyCommitted := true }) := by
  with_unfolding_all rfl

/-! ## C4: commitment permanence -/

/-- C4 — commitment is permanent per session: with the `alreadyCommitted`
flag set the purchase model returns no decision and leaves the state
untouched, whatever the trust or evidence arguments are; and whenever it
does commit, the resulting state has the flag set, so every subsequent
invocation (any environment, session id or arguments) returns no
decision and never produces a second commitment message. -/
theorem c4_commitment_permanent (env : Env) (sid : String) (a : PurchaseArgs)
    (S : SessionState) :
    (S.alreadyCommitted = true → applyAliPurchaseDecision env sid a S = (none, S)) ∧
    (∀ d S', applyAliPurchaseDecision env sid a S = (some d, S') →
      S'.alreadyCommitted = true ∧
        ∀ (env' : Env) (sid' : String) (a' : PurchaseArgs),
          applyAliPurchaseDecision env' sid' a' S' = (none, S')) := by
  constructor
  · intro h
    simp only [applyAliPurchaseDecision]
    rw [if_pos h]
  · intro d S' hEq
    simp only [applyAliPurchaseDecision] at hEq
    split_ifs at hEq with h1 h2 h3 h4
    · simp at hEq
    · simp at hEq
    · simp at hEq
    all_goals
      rw [Prod.mk.injEq] at hEq
      obtain ⟨_, hS⟩ := hEq
      subst hS
      refine ⟨rfl, ?_⟩
      intro env' sid' a'
      simp [applyAliPurchaseDecision]

/-- C4 witness: for a concrete already-committed session state, the model
returns no decision and the unchanged state. -/
theorem c4_commitment_permanent_witness :
    applyAliPurchaseDecision envC "demo" argsC1 SCcommitted = (none, SCcommitted) :=
  (c4_commitment_permanent envC "demo" argsC1 SCcommitted).1 rfl

/-! ## C5: the personal-question quota -/

/-- C5 — the quota check is off by one against its own documentation: with
five personal questions already in the history (three asked in the
`[50,60)` bracket and two more afterwards) and trust now 70 (bracket cap
5), a sixth personal question still receives the bonus `+2`, because
`personalLifeAdjustment` compares the count of *past* questions with the
cap using a strict inequality.  The claim (and the header comment of the
source: at 70 a maximum of 5 questions, `2 из 5` remaining after 3) says
at most two further questions may be rewarded — the third further question
shown here is the divergence. -/
theorem c5_quota_off_by_one :
    countPersonalQuestions histC5 = 5 ∧
      (personalQuestionsCapByTrust 70).cap = 5 ∧
      personalLifeAdjustment 70 histC5 msgC5 = 2 :=
  ⟨by decide, by decide, by with_unfolding_all rfl⟩

/-! ## C6: the capped-at-60 scenario -/

/-- C6 counterexample — in the claimed scenario (`baseTrust = 20`,
evidences demand letter + cooperation contract + website, a `candidate`
stage in the history, no red flags in the latest message) the evidence set
has two Hard items, not one, and the returned trust is 81, not capped at
60. -/
theorem c6_counterexample :
    (countKinds evC6).hard ≠ 1 ∧
      ¬ computeTrust (some (.val 20)) evC6 histC6 msgC6 ≤ 60 := by
  constructor
  · decide
  · have h : computeTrust (some (.val 20)) evC6 histC6 msgC6 = 81 := by
      with_unfolding_all rfl
    omega

/-- C6 amended — both `demand_letter` and `coop_contract_pdf` are
Hard-tier keys, so the scenario's evidence set counts 2 Hard and 1 Medium
items; Gates 1 and 2 pass, and with no red flag in the latest message Gate
3 passes as well, so the trust is not capped at 60 (nor at 75): the
concrete scenario evaluates to 81. -/
theorem c6_amended :
    (countKinds evC6).hard = 2 ∧ (countKinds evC6).med = 1 ∧
      (textSignals msgC6).red = [] ∧
      (stagesOf histC6).contains "candidate" = true ∧
      computeTrust (some (.val 20)) evC6 histC6 msgC6 = 81 :=
  ⟨by decide, by decide, by decide, by decide, by with_unfolding_all rfl⟩

/-! ## C8: seeded determinism -/

/-- C8 — the objection generator and the purchase model depend only on the
session id, the session state (including its turn counter) and their
inputs: the ambient environment (wall-clock `Math.random` / `Date.now`)
never influences them, because every draw comes from the PRNG seeded by
the session id (and, for the purchase model, the turn number).  Two
invocations with identical `(sessionId, turn, inputs)` therefore yield the
identical objection text and the identical purchase outcome (commit or
not, unit count, payment channel). -/
theorem c8_seeded_determinism :
    ∀ (e₁ e₂ : Env) (sid : String) (oa : ObjArgs) (pa : PurchaseArgs)
      (S : SessionState),
      chooseObjection e₁ sid oa S = chooseObjection e₂ sid oa S ∧
        applyAliPurchaseDecision e₁ sid pa S = applyAliPurchaseDecision e₂ sid pa S :=
  fun _ _ _ _ _ _ => ⟨rfl, rfl⟩

/-! ## C10: malformed base trust -/

/-- C10 counterexample — a malformed (non-numeric) `baseTrust` is *not*
scored from the documented fallback 20: on otherwise-empty inputs a `NaN`
base yields trust 1 while base 20 yields 21.  (The default parameter
applies only to a *missing* argument; a malformed one is coerced to 0 by
`Number(x) || 0` inside the clamp.) -/
theorem c10_counterexample :
    computeTrust (some JSNum.nan) [] [] "" ≠
      computeTrust (some (JSNum.val 20)) [] [] "" := by
  have h1 : computeTrust (some JSNum.nan) [] [] "" = 1 := by
    with_unfolding_all rfl
  have h2 : computeTrust (some (JSNum.val 20)) [] [] "" = 21 := by
    with_unfolding_all rfl
  omega

/-- C10 amended — a *missing* `baseTrust` defaults to 20 before scoring,
while a malformed (non-numeric) one is coerced to 0 by the defensive
clamp; in both cases `computeTrust` is total (never throws). -/
theorem c10_amended_fallbacks (ev : List String) (hist : List Msg) (t : String) :
    computeTrust none ev hist t = computeTrust (some (JSNum.val 20)) ev hist t ∧
      computeTrust (some JSNum.nan) ev hist t =
        computeTrust (some (JSNum.val 0)) ev hist t :=
  ⟨rfl, rfl⟩

/-! ## C7: the anti-repetition guard -/

theorem alGet_alSet_self (l : List (String × α)) (k : String) (v d : α) :
    alGet (alSet l k v) k d = v := by
  induction l with
  | nil => simp [alGet, alSet, List.find?]
  | cons p t ih =>
      by_cases hp : p.1 == k
      · simp [alSet, hp, alGet, List.find?]
      · simp only [alSet, if_neg hp]
        simpa [alGet, List.find?, hp] using ih

theorem alGet_alSet_ne (l : List (String × α)) {k k' : String} (v d : α)
    (h : k' ≠ k) : alGet (alSet l k v) k' d = alGet l k' d := by
  have hk : (k == k') = false := by
    rw [beq_eq_false_iff_ne]
    exact fun he => h he.symm
  induction l with
  | nil => simp [alGet, alSet, List.find?, hk]
  | cons p t ih =>
      simp only [alSet]
      by_cases hp : (p.1 == k) = true
      · rw [if_pos hp]
        have hp1 : p.1 = k := by simpa using hp
        have hpk : (p.1 == k') = false := by
          rw [beq_eq_false_iff_ne]
          exact fun he => h (he.symm.trans hp1)
        simp [alGet, List.find?, hk, hpk]
      · rw [if_neg hp]
        by_cases hpk' : (p.1 == k') = true
        · simp [alGet, List.find?, hpk']
        · simp only [alGet, List.find?, hpk']
          simpa [alGet, List.find?, hpk'] using ih

/-- Soundness of the guard loop: every emitted sentence had, in the
ledgers at loop entry (`lu0`, `pc0`), a cooldown gap of at least
`COOLDOWN_TURNS` and a use count below the per-session cap.  The two map
invariants say that during the loop a last-used stamp is either still the
original one or already `turn`, and counts only grow. -/
theorem guardLoop_sound (turn : ℤ) (lu0 : List (String × ℤ))
    (pc0 : List (String × ℕ)) :
    ∀ (sents out : List String) (pc : List (String × ℕ))
      (lu : List (String × ℤ)) (q : ℕ),
      (∀ s ∈ out, COOLDOWN_TURNS ≤ turn - alGet lu0 (normPhrase s) (-999) ∧
        alGet pc0 (normPhrase s) 0 < MAX_SAME_PHRASE) →
      (∀ k, alGet lu k (-999) = alGet lu0 k (-999) ∨ alGet lu k (-999) = turn) →
      (∀ k, alGet pc0 k 0 ≤ alGet pc k 0) →
      ∀ s ∈ (guardLoop turn sents out pc lu q).1,
        COOLDOWN_TURNS ≤ turn - alGet lu0 (normPhrase s) (-999) ∧
          alGet pc0 (normPhrase s) 0 < MAX_SAME_PHRASE := by
  intro sents
  induction sents with
  | nil =>
      intro out pc lu q hout _ _ s hs
      simp only [guardLoop] at hs
      exact hout s (List.mem_reverse.mp hs)
  | cons a rest ih =>
      intro out pc lu q hout hlu hpc s hs
      simp only [guardLoop] at hs
      split_ifs at hs with h1 h2 h3 h4
      · exact ih out pc lu q hout hlu hpc s hs
      · exact ih out pc lu q hout hlu hpc s hs
      · exact ih out pc lu q hout hlu hpc s hs
      · exact ih out pc lu q hout hlu hpc s hs
      all_goals
        refine ih (a :: out) _ _ _ ?_ ?_ ?_ s hs
        · intro s' hs'
          rcases List.mem_cons.mp hs' with rfl | hmem
          · refine ⟨?_, ?_⟩
            · rcases hlu (normPhrase s') with he | he
              · rw [← he]
                exact not_lt.mp h2
              · exfalso
                apply h2
                rw [he]
                simp [COOLDOWN_TURNS]
            · have hle := hpc (normPhrase s')
              have hlt := Nat.lt_of_not_le h3
              exact lt_of_le_of_lt hle hlt
          · exact hout s' hmem
        · intro k
          by_cases hk : k = normPhrase a
          · subst hk
            right
            exact alGet_alSet_self ..
          · rw [alGet_alSet_ne _ _ _ hk]
            exact hlu k
        · intro k
          by_cases hk : k = normPhrase a
          · subst hk
            rw [alGet_alSet_self]
            exact le_trans (hpc _) (Nat.le_succ _)
          · rw [alGet_alSet_ne _ _ _ hk]
            exact hpc k

/-- Provenance: every sentence the guard loop emits came from the
accumulator or from the input sentence list. -/
theorem guardLoop_subset (turn : ℤ) :
    ∀ (sents out : List String) (pc : List (String × ℕ))
      (lu : List (String × ℤ)) (q : ℕ),
      ∀ s ∈ (guardLoop turn sents out pc lu q).1, s ∈ out ∨ s ∈ sents := by
  intro sents
  induction sents with
  | nil =>
      intro out pc lu q s hs
      simp only [guardLoop] at hs
      exact Or.inl (List.mem_reverse.mp hs)
  | cons a rest ih =>
      intro out pc lu q s hs
      simp only [guardLoop] at hs
      split_ifs at hs with h1 h2 h3 h4
      · rcases ih out pc lu q s hs with h | h
        · exact Or.inl h
        · exact Or.inr (List.mem_cons_of_mem a h)
      · rcases ih out pc lu q s hs with h | h
        · exact Or.inl h
        · exact Or.inr (List.mem_cons_of_mem a h)
      · rcases ih out pc lu q s hs with h | h
        · exact Or.inl h
        · exact Or.inr (List.mem_cons_of_mem a h)
      · rcases ih out pc lu q s hs with h | h
        · exact Or.inl h
        · exact Or.inr (List.mem_cons_of_mem a h)
      all_goals
        rcases ih (a :: out) _ _ _ s hs with h | h
        · rcases List.mem_cons.mp h with rfl | hmem
          · exact Or.inr (List.mem_cons_self ..)
          · exact Or.inl hmem
        · exact Or.inr (List.mem_cons_of_mem a h)

/-- Sentences produced by the splitter are nonempty after trimming. -/
theorem splitSentences_trim_ne (t : String) :
    ∀ s ∈ splitSentences t, jsTrim s ≠ "" := by
  intro s hs
  unfold splitSentences at hs
  have h := (List.mem_filter.mp hs).2
  simpa using h

theorem joinSpace_ne_empty (a : String) (l : List String) (ha : a ≠ "") :
    joinSpace (a :: l) ≠ "" := by
  cases l with
  | nil => simpa [joinSpace] using ha
  | cons b t =>
      show a ++ " " ++ joinSpace (b :: t) ≠ ""
      intro h
      have hd := congrArg String.data h
      rw [String.data_append, String.data_append] at hd
      have hempty : a.data = [] := (List.append_eq_nil.mp
        ((List.append_eq_nil.mp hd).1)).1
      apply ha
      cases a
      exact congrArg String.mk hempty

/-- C7 — the anti-repetition guard never re-emits a sentence whose
normalized form was used within the 6-turn cooldown window or whose
per-session use count has reached the once-per-session cap (both judged
against the ledgers at call entry), and its final reply is never the
empty string: when every candidate sentence is filtered out it returns the
fallback `Ок.`. -/
theorem c7_guard_no_repeat_nonempty (reply : String) (S : SessionState) :
    (∀ s ∈ (guardLoop (S.turn : ℤ) (splitSentences reply) [] S.phraseCounts
        S.lastUsedTurn 0).1,
      COOLDOWN_TURNS ≤ (S.turn : ℤ) - alGet S.lastUsedTurn (normPhrase s) (-999) ∧
        alGet S.phraseCounts (normPhrase s) 0 < MAX_SAME_PHRASE) ∧
    (repetitionGuard reply S).1 ≠ "" := by
  constructor
  · exact guardLoop_sound (S.turn : ℤ) S.lastUsedTurn S.phraseCounts
      (splitSentences reply) [] S.phraseCounts S.lastUsedTurn 0
      (by intro s hs; simp at hs) (fun k => Or.inl rfl) (fun k => le_rfl)
  · unfold repetitionGuard
    cases hr : (guardLoop (S.turn : ℤ) (splitSentences reply) [] S.phraseCounts
        S.lastUsedTurn 0).1 with
    | nil => simp [hr]
    | cons a l =>
        have hmem : a ∈ (guardLoop (S.turn : ℤ) (splitSentences reply) []
            S.phraseCounts S.lastUsedTurn 0).1 := by
          rw [hr]
          exact List.mem_cons_self ..
        have hsrc := guardLoop_subset (S.turn : ℤ) (splitSentences reply) []
          S.phraseCounts S.lastUsedTurn 0 a hmem
        have ha : a ≠ "" := by
          rcases hsrc with h | h
          · simp at h
          · intro he
            exact splitSentences_trim_ne reply a h (by rw [he]; rfl)
        simp only [hr, List.isEmpty_cons, Bool.false_eq_true, if_false]
        exact joinSpace_ne_empty a l ha

/-! ## C9: monotonicity in Hard evidence -/

theorem dedup_append_singleton {α : Type} [DecidableEq α] (l : List α) (a : α)
    (ha : a ∉ l) : (l ++ [a]).dedup = l.dedup ++ [a] := by
  induction l with
  | nil => simp
  | cons b t ih =>
      have hat : a ∉ t := fun hm => ha (List.mem_cons_of_mem b hm)
      have hab : b ≠ a := fun he => ha (he ▸ List.mem_cons_self b t)
      by_cases hb : b ∈ t
      · rw [List.cons_append, List.dedup_cons_of_mem (List.mem_append_left _ hb),
          List.dedup_cons_of_mem hb, ih hat]
      · have hb' : b ∉ t ++ [a] := by
          intro hm
          rcases List.mem_append.mp hm with hm | hm
          · exact hb hm
          · exact hab (List.mem_singleton.mp hm)
        rw [List.cons_append, List.dedup_cons_of_not_mem hb',
          List.dedup_cons_of_not_mem hb, ih hat, List.cons_append]

/-- Appending one new (not-yet-seen) Hard-tier key increments the unique
and Hard counts and leaves the Medium and Support counts unchanged. -/
theorem countKinds_snoc_hard (ev : List String) (x : String)
    (hmem : HARD_PROOFS.contains (normKey x) = true)
    (hnew : normKey x ∉ ev.map normKey) :
    countKinds (ev ++ [x]) =
      ⟨(countKinds ev).uniq + 1, (countKinds ev).hard + 1, (countKinds ev).med,
       (countKinds ev).sup, (countKinds ev).uniqSet ++ [normKey x]⟩ := by
  unfold countKinds
  simp only [List.map_append, List.map_cons, List.map_nil]
  rw [dedup_append_singleton _ _ hnew]
  have hm : normKey x ∈ HARD_PROOFS := by simpa using hmem
  simp [List.countP_append, List.countP_cons, hmem]
  exact ⟨hm, fun hh => absurd hm hh, fun hh _ => absurd hm hh⟩

theorem capByTrust_cap_mono {a b : ℚ} (h : a ≤ b) :
    (personalQuestionsCapByTrust a).cap ≤ (personalQuestionsCapByTrust b).cap := by
  unfold personalQuestionsCapByTrust
  split_ifs <;> first | (exfalso; linarith) | norm_num

theorem capByTrust_bonus_mono {a b : ℚ} (h : a ≤ b) :
    (personalQuestionsCapByTrust a).bonus ≤ (personalQuestionsCapByTrust b).bonus := by
  unfold personalQuestionsCapByTrust
  split_ifs <;> first | (exfalso; linarith) | norm_num

theorem capByTrust_bonus_nonneg (a : ℚ) :
    0 ≤ (personalQuestionsCapByTrust a).bonus := by
  unfold personalQuestionsCapByTrust
  split_ifs <;> norm_num

/-- The personal-question adjustment is monotone in the running score. -/
theorem personalLifeAdjustment_mono (hist : List Msg) (t : String) {a b : ℚ}
    (h : a ≤ b) :
    personalLifeAdjustment a hist t ≤ personalLifeAdjustment b hist t := by
  simp only [personalLifeAdjustment]
  by_cases hn : (!personalRx t) = true
  · rw [if_pos hn, if_pos hn]
  · rw [if_neg hn, if_neg hn]
    by_cases ha40 : a < 40
    · rw [if_pos ha40]
      by_cases hb40 : b < 40
      · rw [if_pos hb40]
      · rw [if_neg hb40]
        by_cases hc : (personalQuestionsCapByTrust b).cap < countPersonalQuestions hist
        · rw [if_pos hc]
          norm_num
        · rw [if_neg hc]
          linarith [capByTrust_bonus_nonneg b]
    · rw [if_neg ha40]
      have hb40 : ¬ b < 40 := fun hb => ha40 (lt_of_le_of_lt h hb)
      rw [if_neg hb40]
      by_cases hcb : (personalQuestionsCapByTrust b).cap < countPersonalQuestions hist
      · have hca : (personalQuestionsCapByTrust a).cap < countPersonalQuestions hist :=
          lt_of_le_of_lt (capByTrust_cap_mono h) hcb
        rw [if_pos hca, if_pos hcb]
      · rw [if_neg hcb]
        by_cases hca : (personalQuestionsCapByTrust a).cap < countPersonalQuestions hist
        · rw [if_pos hca]
          exact capByTrust_bonus_nonneg b
        · rw [if_neg hca]
          exact capByTrust_bonus_mono h

/-- The informational-topics count of the micro-credits does not depend on
the Hard/Medium counts. -/
theorem micro_found_eq (hist : List Msg) (a a' c c' : ℕ) :
    (dialogMicroCredits hist a c).uniqInfoKeysCount =
      (dialogMicroCredits hist a' c').uniqInfoKeysCount := rfl

/-- More Hard evidence can only clear the early-payment-pressure flag. -/
theorem micro_pressure_mono (hist : List Msg) {a a' c : ℕ} (h : a ≤ a') :
    (dialogMicroCredits hist a' c).recentEarlyPayPressure = true →
    (dialogMicroCredits hist a c).recentEarlyPayPressure = true := by
  simp only [dialogMicroCredits, Bool.and_eq_true, Bool.not_eq_true',
    decide_eq_true_eq, decide_eq_false_iff_not]
  intro hp
  refine ⟨hp.1, fun hpass => hp.2 ?_⟩
  rcases hpass with h2 | h12
  · exact Or.inl (by omega)
  · exact Or.inr ⟨by omega, h12.2⟩

theorem contains_append_left (l m : List String) (a : String)
    (h : l.contains a = true) : (l ++ m).contains a = true := by
  have hm : a ∈ l := by simpa using h
  simpa using List.mem_append_left m hm

/-- If the condition only weakens, a nonnegative conditional bonus only
grows. -/
theorem ite_le_ite_of_imp {p q : Prop} [Decidable p] [Decidable q] {c : ℚ}
    (hc : 0 ≤ c) (h : p → q) : (if p then c else 0) ≤ (if q then c else 0) := by
  by_cases hp : p
  · rw [if_pos hp, if_pos (h hp)]
  · rw [if_neg hp]
    by_cases hq : q
    · rw [if_pos hq]
      exact hc
    · rw [if_neg hq]

/-- The `+1` early-payment bonus never shrinks when Hard evidence grows. -/
theorem earlyPayBonus_mono (hist : List Msg) (a a' c : ℕ) (h : a ≤ a') :
    (if (dialogMicroCredits hist a c).recentEarlyPayPressure = true
      then (0:ℚ) else 1) ≤
    (if (dialogMicroCredits hist a' c).recentEarlyPayPressure = true
      then (0:ℚ) else 1) := by
  by_cases hL : (dialogMicroCredits hist a c).recentEarlyPayPressure = true
  · rw [if_pos hL]
    split_ifs <;> norm_num
  · rw [if_neg hL]
    rw [if_neg (fun hp => hL (micro_pressure_mono hist h hp))]

/-- Adding one new Hard-tier key never lowers the pre-personal score. -/
theorem preRedGreen_snoc_hard (b : Option JSNum) (ev : List String)
    (hist : List Msg) (t : String) (x : String)
    (hmem : HARD_PROOFS.contains (normKey x) = true)
    (hnew : normKey x ∉ ev.map normKey) :
    preRedGreenScore b ev hist t ≤ preRedGreenScore b (ev ++ [x]) hist t := by
  simp only [preRedGreenScore]
  rw [countKinds_snoc_hard ev x hmem hnew]
  dsimp only
  push_cast
  have hcoop :
      (if ((countKinds ev).uniqSet.contains "coop_contract_pdf"
          || (countKinds ev).uniqSet.contains "contract_pdf") = true
        then (4:ℚ) else 0) ≤
      (if (((countKinds ev).uniqSet ++ [normKey x]).contains "coop_contract_pdf"
          || ((countKinds ev).uniqSet ++ [normKey x]).contains "contract_pdf") = true
        then (4:ℚ) else 0) := by
    refine ite_le_ite_of_imp (by norm_num) (fun hc => ?_)
    simp only [Bool.or_eq_true] at hc ⊢
    rcases hc with hc | hc
    · exact Or.inl (contains_append_left _ _ _ hc)
    · exact Or.inr (contains_append_left _ _ _ hc)
  have h3 : (if 3 ≤ (countKinds ev).uniq then (3:ℚ) else 0) ≤
      (if 2 ≤ (countKinds ev).uniq then (3:ℚ) else 0) :=
    ite_le_ite_of_imp (by norm_num) (fun h => by omega)
  have h5 : (if 5 ≤ (countKinds ev).uniq then (3:ℚ) else 0) ≤
      (if 4 ≤ (countKinds ev).uniq then (3:ℚ) else 0) :=
    ite_le_ite_of_imp (by norm_num) (fun h => by omega)
  have hcand :
      (if (stagesOf hist).contains "candidate" = true ∧
          0 < (countKinds ev).hard + (countKinds ev).med then (2:ℚ) else 0) ≤
      (if (stagesOf hist).contains "candidate" = true ∧
          0 < (countKinds ev).hard + 1 + (countKinds ev).med then (2:ℚ) else 0) :=
    ite_le_ite_of_imp (by norm_num) (fun h => ⟨h.1, by omega⟩)
  have hcontr :
      (if (stagesOf hist).contains "contract" = true ∧
          0 < (countKinds ev).hard then (3:ℚ) else 0) ≤
      (if (stagesOf hist).contains "contract" = true ∧
          0 < (countKinds ev).hard + 1 then (3:ℚ) else 0) :=
    ite_le_ite_of_imp (by norm_num) (fun h => ⟨h.1, by omega⟩)
  linarith [hcoop, h3, h5, hcand, hcontr]

/-- Adding one new Hard-tier key never lowers the full pre-gate score. -/
theorem preGateScore_snoc_hard (b : Option JSNum) (ev : List String)
    (hist : List Msg) (t : String) (x : String)
    (hmem : HARD_PROOFS.contains (normKey x) = true)
    (hnew : normKey x ∉ ev.map normKey) :
    preGateScore b ev hist t ≤ preGateScore b (ev ++ [x]) hist t := by
  simp only [preGateScore]
  rw [countKinds_snoc_hard ev x hmem hnew]
  dsimp only
  have h5 : preRedGreenScore b ev hist t ≤ preRedGreenScore b (ev ++ [x]) hist t :=
    preRedGreen_snoc_hard b ev hist t x hmem hnew
  have h6 : personalLifeAdjustment (preRedGreenScore b ev hist t) hist t ≤
      personalLifeAdjustment (preRedGreenScore b (ev ++ [x]) hist t) hist t :=
    personalLifeAdjustment_mono hist t h5
  have hb := earlyPayBonus_mono hist (countKinds ev).hard
    ((countKinds ev).hard + 1) (countKinds ev).med
    (Nat.le_succ (countKinds ev).hard)
  rw [micro_found_eq hist (countKinds ev).hard ((countKinds ev).hard + 1)
    (countKinds ev).med (countKinds ev).med]
  linarith [h5, h6, hb]

/-- C9 — adding one more unique Hard-tier evidence key (all else equal)
never decreases the trust returned by `computeTrust`: every additive step
is monotone, the personal-question adjustment is monotone in the running
score, and the gates only open wider with more Hard evidence. -/
theorem c9_hard_evidence_monotone (b : Option JSNum) (ev : List String)
    (hist : List Msg) (t : String) (x : String)
    (hmem : HARD_PROOFS.contains (normKey x) = true)
    (hnew : normKey x ∉ ev.map normKey) :
    computeTrust b ev hist t ≤ computeTrust b (ev ++ [x]) hist t := by
  simp only [computeTrust]
  rw [countKinds_snoc_hard ev x hmem hnew]
  dsimp only
  exact roundJS_mono (clamp01_100_mono (applyGates_mono
    (preGateScore_snoc_hard b ev hist t x hmem hnew)
    (Nat.le_succ (countKinds ev).hard)))

/-- C9 witness: adding `demand_letter` to the empty evidence set does not
decrease the score. -/
theorem c9_hard_evidence_monotone_witness :
    HARD_PROOFS.contains (normKey "demand_letter") = true ∧
      normKey "demand_letter" ∉ ([] : List String).map normKey ∧
      computeTrust (some (.val 20)) [] [] "" ≤
        computeTrust (some (.val 20)) ([] ++ ["demand_letter"]) [] "" :=
  ⟨by decide, by decide,
   c9_hard_evidence_monotone (some (.val 20)) [] [] "" "demand_letter"
     (by decide) (by decide)⟩

/-- C7 witness: a concrete fresh session at turn 10 — the sentence
`Привет.` passes both checks and the guard's reply is nonempty. -/
theorem c7_guard_witness :
    (COOLDOWN_TURNS ≤ ((SG.turn : ℕ) : ℤ) - alGet SG.lastUsedTurn
        (normPhrase "Привет.") (-999) ∧
      alGet SG.phraseCounts (normPhrase "Привет.") 0 < MAX_SAME_PHRASE) ∧
    (repetitionGuard "Привет." SG).1 ≠ "" :=
  ⟨(c7_guard_no_repeat_nonempty "Привет." SG).1 "Привет." (by decide),
   (c7_guard_no_repeat_nonempty "Привет." SG).2⟩

end Renovogo
